import Mathlib

/-!
Verification of the read-later application's Embedding Intelligence Engine
against its natural-language specification.

The repository under scrutiny is a Next.js frontend plus a FastAPI backend.
The frontend TypeScript sources are embedded here directly; the backend
service (vectorizer, priority scorer, analyzer, item insertion) is not part
of the available sources, so those components are modelled from the spec,
as marked in their doc comments.
-/

namespace ReadLater

/-! ## Priority scorer (spec section 4.6)

Modelled from the spec: the backend priority scorer is not among the
available sources; the formula below is the one given in spec section 4.6
and in the repository README: `priority = 1 / (1 + exp(-k * ((days_since_added
* expiry_score / base_period) - 0.5)))` with `k = 5`, `base_period = 3`.
-/

/-- Modelled from the spec: the backend priority scorer function
`priority(daysSinceAdded, expiryScore)` (the backend source is absent; the
formula is taken verbatim from spec section 4.6 with the fixed constants
`k = 5` and `basePeriod = 3`). -/
noncomputable def priority (daysSinceAdded expiryScore : ℝ) : ℝ :=
  1 / (1 + Real.exp (-5 * (daysSinceAdded * expiryScore / 3 - 1 / 2)))

theorem priority_denom_pos (y : ℝ) : 0 < 1 + Real.exp y :=
  lt_trans one_pos (by linarith [Real.exp_pos y])

theorem priority_pos (d e : ℝ) : 0 < priority d e :=
  div_pos one_pos (priority_denom_pos _)

theorem priority_lt_one (d e : ℝ) : priority d e < 1 := by
  unfold priority
  rw [div_lt_one (priority_denom_pos _)]
  linarith [Real.exp_pos (-5 * (d * e / 3 - 1 / 2))]

/-- A claim of the spec places the sigmoid midpoint at `daysSinceAdded = 3`
for `expiryScore = 1`, but the spec's own formula puts the midpoint where
`daysSinceAdded * expiryScore / basePeriod = 0.5`, i.e. at `daysSinceAdded =
1.5` days when `expiryScore = 1`.  At `(3, 1)` the exponent is `-5/2`, not
`0`, so the value is `1 / (1 + exp (-5/2))`, which differs from `1/2`.
This refutes the claim `priority(3, 1.0) = 0.5` (claim C2). -/
theorem priority_at_three_one_ne_half : priority 3 1 ≠ 1 / 2 := by
  unfold priority
  have harg : (-5 : ℝ) * (3 * 1 / 3 - 1 / 2) = -5 / 2 := by norm_num
  rw [harg]
  intro h
  have hpos := priority_denom_pos (-5 / 2 : ℝ)
  have h2 : (1 + Real.exp (-5 / 2 : ℝ)) = 2 := by
    field_simp at h
    linarith
  have h1 : Real.exp (-5 / 2 : ℝ) = 1 := by linarith
  rw [Real.exp_eq_one_iff] at h1
  norm_num at h1

/-- Claim C2, as amended: the priority scorer is the sigmoid
`1 / (1 + exp (-5 * (d * e / 3 - 0.5)))`, its value always lies strictly
between 0 and 1, and its midpoint value 1/2 is attained at
`daysSinceAdded = 1.5`, `expiryScore = 1.0` (not at `daysSinceAdded = 3`). -/
theorem priority_range_and_midpoint :
    (∀ d e : ℝ, 0 < priority d e ∧ priority d e < 1) ∧
      priority (3 / 2) 1 = 1 / 2 := by
  constructor
  · exact fun d e => ⟨priority_pos d e, priority_lt_one d e⟩
  · unfold priority
    have harg : (-5 : ℝ) * (3 / 2 * 1 / 3 - 1 / 2) = 0 := by norm_num
    rw [harg, Real.exp_zero]
    norm_num

theorem priority_core_strict {x y : ℝ} (hxy : x < y) :
    1 / (1 + Real.exp (-5 * (x / 3 - 1 / 2))) <
      1 / (1 + Real.exp (-5 * (y / 3 - 1 / 2))) := by
  have hexp : Real.exp (-5 * (y / 3 - 1 / 2)) < Real.exp (-5 * (x / 3 - 1 / 2)) := by
    apply Real.exp_lt_exp.mpr
    linarith
  exact one_div_lt_one_div_of_lt (priority_denom_pos _) (by linarith)

/-- Claim C3: for every fixed `expiryScore > 0` the priority is strictly
increasing in `daysSinceAdded`, and for every fixed `daysSinceAdded > 0` it
is monotonically increasing in `expiryScore`. -/
theorem priority_monotone :
    (∀ e : ℝ, 0 < e → ∀ d₁ d₂ : ℝ, d₁ < d₂ → priority d₁ e < priority d₂ e) ∧
      (∀ d : ℝ, 0 < d → ∀ e₁ e₂ : ℝ, e₁ ≤ e₂ → priority d e₁ ≤ priority d e₂) := by
  constructor
  · intro e he d₁ d₂ hd
    unfold priority
    exact priority_core_strict (by nlinarith)
  · intro d hd e₁ e₂ he
    rcases eq_or_lt_of_le he with rfl | hlt
    · exact le_refl _
    · unfold priority
      exact le_of_lt (priority_core_strict (by nlinarith))

/-- Witness for the monotonicity theorem at concrete inputs. -/
theorem priority_monotone_witness :
    ((0 : ℝ) < 1 ∧ (1 : ℝ) < 2 ∧ priority 1 1 < priority 2 1) ∧
      ((0 : ℝ) < 1 ∧ (1 : ℝ) ≤ 2 ∧ priority 1 1 ≤ priority 1 2) :=
  ⟨⟨one_pos, one_lt_two, priority_monotone.1 1 one_pos 1 2 one_lt_two⟩,
    ⟨one_pos, one_le_two, priority_monotone.2 1 one_pos 1 2 one_le_two⟩⟩

/-! ## Vectorizer (spec section 4.1)

Modelled from the spec: the backend Vectorizer is not among the available
sources.  `vectorize(text, maxInputTokens)` splits the token sequence into
overlapping chunks, embeds every chunk with the provider, and takes the full
embedding either directly from the provider (text within the token limit) or
as the mean of the chunk embeddings (text over the limit).  The embedding
provider is a parameter (`embed`), text is a token list, vectors are lists
of rationals.
-/

/-- An embedding vector: a list of rational components. -/
abbrev Vec := List ℚ

/-- Componentwise vector addition (on the provider's fixed dimension both
arguments have the same length). -/
def vecAdd (v w : Vec) : Vec := List.zipWith (· + ·) v w

/-- Scaling of a vector by a rational constant. -/
def vecScale (c : ℚ) (v : Vec) : Vec := v.map (fun q => c * q)

/-- Modelled from the spec: the mean pooling performed by the backend
Vectorizer when the text exceeds the provider's token limit — the chunk
vectors are summed and the sum is scaled by one over the chunk count. -/
def meanPool (vs : List Vec) : Vec :=
  match vs with
  | [] => []
  | v :: rest => vecScale (1 / ((rest.length + 1 : ℕ) : ℚ)) (rest.foldl vecAdd v)

/-- The component-wise arithmetic mean, written the way the spec states it:
component `j` of the result is the mean over all vectors of their component
`j`.  This is the spec-side definition against which the implementation
model `meanPool` is compared. -/
def componentMean (vs : List Vec) (dim : ℕ) : Vec :=
  (List.range dim).map
    (fun j => (vs.map (fun v => v.getD j 0)).sum / ((vs.length : ℕ) : ℚ))

/-- The chunker's step: chunk size minus the overlap, and at least one token
so that chunking always advances. -/
def chunkStep (size overlap : ℕ) : ℕ := max 1 (size - overlap)

/-- Modelled from the spec: splitting a token sequence into overlapping
chunks of at most `size` tokens, consecutive chunks overlapping by
`overlap` tokens.  The fuel argument bounds the recursion; `chunkList`
supplies `tokens.length`, which is enough because every step consumes at
least one token. -/
def chunkListAux (size overlap : ℕ) : ℕ → List String → List (List String)
  | 0, tokens => [tokens]
  | fuel + 1, tokens =>
    if tokens.length ≤ size then [tokens]
    else tokens.take size ::
      chunkListAux size overlap fuel (tokens.drop (chunkStep size overlap))

/-- Splitting a token sequence into overlapping chunks. -/
def chunkList (size overlap : ℕ) (tokens : List String) : List (List String) :=
  chunkListAux size overlap tokens.length tokens

/-- One chunk with its embedding, as returned by `vectorize`. -/
structure ChunkEmbedding where
  text : List String
  embedding : Vec
deriving DecidableEq

/-- The result of `vectorize`: the full-document embedding plus the chunk
embeddings. -/
structure VectorizeResult where
  fullEmbedding : Vec
  chunks : List ChunkEmbedding
deriving DecidableEq

/-- Modelled from the spec: `vectorize(text, maxInputTokens)` of the backend
Vectorizer (spec section 4.1; the backend source is absent).  The overlap
fraction is fixed at 15 percent of the chunk size, inside the 10 to 20
percent band the spec recommends.  When the whole text fits under
`maxInputTokens` the full embedding comes directly from the provider on the
complete text; when it exceeds the limit the full embedding is the mean of
the chunk embeddings. -/
def vectorize (embed : List String → Vec) (tokens : List String)
    (maxInputTokens : ℕ) : VectorizeResult :=
  let overlap := maxInputTokens * 3 / 20
  let pieces := chunkList maxInputTokens overlap tokens
  let chunks := pieces.map (fun p => ChunkEmbedding.mk p (embed p))
  if tokens.length ≤ maxInputTokens then
    { fullEmbedding := embed tokens, chunks := chunks }
  else
    { fullEmbedding := meanPool (chunks.map (fun c => c.embedding)),
      chunks := chunks }

theorem chunkListAux_ne_nil (size overlap fuel : ℕ) (tokens : List String) :
    chunkListAux size overlap fuel tokens ≠ [] := by
  cases fuel with
  | zero => simp [chunkListAux]
  | succ n =>
    unfold chunkListAux
    split <;> simp

theorem chunkList_ne_nil (size overlap : ℕ) (tokens : List String) :
    chunkList size overlap tokens ≠ [] :=
  chunkListAux_ne_nil _ _ _ _

theorem vecAdd_length (v w : Vec) : (vecAdd v w).length = min v.length w.length := by
  simp [vecAdd]

theorem vecAdd_getElem (v w : Vec) (i : ℕ) (h : i < (vecAdd v w).length) :
    (vecAdd v w).get ⟨i, h⟩ =
      v.get ⟨i, by simp [vecAdd_length] at h; exact h.1⟩ +
      w.get ⟨i, by simp [vecAdd_length] at h; exact h.2⟩ := by
  simp [vecAdd]

/-- Folding vector addition over a list of equal-length vectors keeps the
length and computes the componentwise sum. -/
theorem foldl_vecAdd_spec (dim : ℕ) :
    ∀ (rest : List Vec) (acc : Vec), acc.length = dim →
      (∀ v ∈ rest, v.length = dim) →
      (rest.foldl vecAdd acc).length = dim ∧
        ∀ i (h : i < dim),
          (rest.foldl vecAdd acc).getD i 0 =
            acc.getD i 0 + (rest.map (fun v => v.getD i 0)).sum := by
  intro rest
  induction rest with
  | nil =>
    intro acc hacc _
    exact ⟨hacc, fun i _ => by simp⟩
  | cons w rest ih =>
    intro acc hacc hall
    have hw : w.length = dim := hall w (List.mem_cons_self _ _)
    have hacc' : (vecAdd acc w).length = dim := by
      rw [vecAdd_length, hacc, hw, min_self]
    have hall' : ∀ v ∈ rest, v.length = dim := fun v hv =>
      hall v (List.mem_cons_of_mem _ hv)
    obtain ⟨hlen, hval⟩ := ih (vecAdd acc w) hacc' hall'
    refine ⟨by simpa using hlen, fun i h => ?_⟩
    have hstep : (vecAdd acc w).getD i 0 = acc.getD i 0 + w.getD i 0 := by
      have hi₁ : i < acc.length := by rw [hacc]; exact h
      have hi₂ : i < w.length := by rw [hw]; exact h
      have hi₀ : i < (vecAdd acc w).length := by rw [hacc']; exact h
      rw [List.getD_eq_getElem _ _ hi₀, List.getD_eq_getElem _ _ hi₁,
        List.getD_eq_getElem _ _ hi₂]
      simp [vecAdd]
    calc ((w :: rest).foldl vecAdd acc).getD i 0
        = (rest.foldl vecAdd (vecAdd acc w)).getD i 0 := by simp
      _ = (vecAdd acc w).getD i 0 + (rest.map (fun v => v.getD i 0)).sum :=
          hval i h
      _ = acc.getD i 0 + ((w :: rest).map (fun v => v.getD i 0)).sum := by
          rw [hstep]; simp; ring

/-- On a nonempty family of equal-length vectors, the implementation's mean
pooling (sum then scale) agrees with the spec's component-wise mean. -/
theorem meanPool_eq_componentMean (vs : List Vec) (dim : ℕ)
    (hne : vs ≠ []) (hlen : ∀ v ∈ vs, v.length = dim) :
    meanPool vs = componentMean vs dim := by
  cases vs with
  | nil => exact absurd rfl hne
  | cons v rest =>
    have hv : v.length = dim := hlen v (List.mem_cons_self _ _)
    have hrest : ∀ w ∈ rest, w.length = dim := fun w hw =>
      hlen w (List.mem_cons_of_mem _ hw)
    obtain ⟨hslen, hsval⟩ := foldl_vecAdd_spec dim rest v hv hrest
    apply List.ext_getElem
    · simp [meanPool, vecScale, componentMean, hslen]
    · intro i h₁ h₂
      have hidim : i < dim := by
        simpa [componentMean] using h₂
      have hisum : i < (rest.foldl vecAdd v).length := by rw [hslen]; exact hidim
      have hmean : (meanPool (v :: rest))[i] =
          (1 / ((rest.length + 1 : ℕ) : ℚ)) * (rest.foldl vecAdd v)[i] := by
        simp [meanPool, vecScale]
      have hcomp : (componentMean (v :: rest) dim)[i] =
          ((v :: rest).map (fun w => w.getD i 0)).sum /
            (((v :: rest).length : ℕ) : ℚ) := by
        simp [componentMean]
      rw [hmean, hcomp]
      have hsval' := hsval i hidim
      rw [List.getD_eq_getElem _ _ hisum] at hsval'
      rw [hsval']
      simp
      ring

/-- Claim C1: for every input text whose token count exceeds
`maxInputTokens`, `vectorize(text, maxInputTokens).fullEmbedding` is the
component-wise arithmetic mean of the embeddings of all of its chunks (no
renormalization), provided the embedding provider returns vectors of its
fixed dimension `dim`. -/
theorem vectorize_overflow_mean (embed : List String → Vec)
    (tokens : List String) (maxInputTokens dim : ℕ)
    (hdim : ∀ p, (embed p).length = dim)
    (hover : maxInputTokens < tokens.length) :
    (vectorize embed tokens maxInputTokens).fullEmbedding =
      componentMean
        ((vectorize embed tokens maxInputTokens).chunks.map
          (fun c => c.embedding)) dim := by
  have hnotle : ¬ tokens.length ≤ maxInputTokens := not_le.mpr hover
  unfold vectorize
  simp [hnotle]
  apply meanPool_eq_componentMean
  · have := chunkList_ne_nil maxInputTokens (maxInputTokens * 3 / 20) tokens
    intro hcontra
    rw [List.map_eq_nil_iff] at hcontra
    exact this hcontra
  · intro v hv
    rw [List.mem_map] at hv
    obtain ⟨p, _, hp⟩ := hv
    rw [← hp]
    exact hdim p

/-- A sample embedding provider of fixed dimension 2 used by the witness. -/
def sampleEmbed (p : List String) : Vec := [(p.length : ℚ), 1]

/-- Witness for the overflow-mean theorem on a concrete three-token text
with token limit 1. -/
theorem vectorize_overflow_mean_witness :
    (∀ p, (sampleEmbed p).length = 2) ∧
      1 < (["a", "b", "c"] : List String).length ∧
      (vectorize sampleEmbed ["a", "b", "c"] 1).fullEmbedding =
        componentMean
          ((vectorize sampleEmbed ["a", "b", "c"] 1).chunks.map
            (fun c => c.embedding)) 2 :=
  ⟨fun p => rfl, by decide,
    vectorize_overflow_mean sampleEmbed ["a", "b", "c"] 1 2 (fun p => rfl)
      (by decide)⟩

/-! ## Hybrid retrieval frontend (src/frontend/src/app/_lib/search.ts)

A shallow embedding of `searchItems`: the empty-query early return, the
limit sanitisation, the parsing of the backend payload into per-entry
records, the unique-id pass, the item fetch, and the final per-item
deduplication loop.  The search backend (`authedFetch` on `/items/search`)
and the item store (`fetchItems`) are oracle parameters. -/

/-- Whitespace as recognised by `String.prototype.trim` on the character
sets exercised here (space, tab, line feed, carriage return). -/
def isJsWhitespace (c : Char) : Bool :=
  c = ' ' || c = '\t' || c = '\n' || c = '\r'

/-- Model of the JavaScript `String.prototype.trim`: strip leading and
trailing whitespace. -/
def jsTrim (s : String) : String :=
  ⟨((s.data.dropWhile isJsWhitespace).reverse.dropWhile
      isJsWhitespace).reverse⟩

/-- The `mode` search parameter (search.ts line 6). -/
inductive SearchMode where
  | lexical
  | semantic
deriving DecidableEq

/-- The `scope` search parameter (search.ts line 7). -/
inductive SearchScope where
  | items
  | chunks
deriving DecidableEq

/-- The slice of an item row that the deduplication logic reads: its id.
(`searchItems` keys its item map by `item.id`; the remaining item fields
are irrelevant to the claims proved here.) -/
structure ItemSummary where
  id : String
deriving DecidableEq

/-- One parsed raw backend result (search.ts lines 53 to 58). -/
structure ParsedRawResult where
  id : String
  preview : Option String
  score : Option ℚ
  distance : Option ℚ
deriving DecidableEq

/-- One final search result (search.ts lines 9 to 14). -/
structure SearchResult where
  item : ItemSummary
  preview : Option String
  score : Option ℚ
  distance : Option ℚ
deriving DecidableEq

/-- `sanitiseLimit` (search.ts lines 80 to 89): a missing or non-finite
limit becomes 20, any other limit is truncated and clamped into [1, 100].
`none` models `undefined`/`NaN`. -/
def sanitiseLimit (limit : Option ℤ) : ℤ :=
  match limit with
  | none => 20
  | some value => min (max value 1) 100

/-- The item lookup map built in search.ts lines 177 to 179: a map keyed by
`item.id`, queried with the entry id. -/
def itemById (items : List ItemSummary) (id : String) : Option ItemSummary :=
  items.find? (fun it => it.id == id)

/-- The first-occurrence unique-id pass (search.ts lines 153 to 160). -/
def uniqueIds (parsed : List ParsedRawResult) : List String :=
  parsed.foldl (fun acc e => if e.id ∈ acc then acc else acc ++ [e.id]) []

/-- The final result loop of `searchItems` (search.ts lines 181 to 195):
walk the parsed entries in order, skip entries whose item was not fetched
and entries whose item id was already used, and otherwise emit a result
carrying the fetched item and the entry's preview, score and distance. -/
def buildResults (items : List ItemSummary) :
    List ParsedRawResult → List String → List SearchResult
  | [], _ => []
  | e :: rest, used =>
    match itemById items e.id with
    | none => buildResults items rest used
    | some it =>
      if e.id ∈ used then buildResults items rest used
      else
        { item := it, preview := e.preview, score := e.score,
          distance := e.distance } :: buildResults items rest (e.id :: used)

/-- `searchItems` (search.ts lines 91 to 198).  `fetchSearch` is the search
backend behind `authedFetch` (already parsed into entry records);
`fetchItemsById` is the item store behind `fetchItems`.  The second
component of the output counts backend calls (`authedFetch` plus
`fetchItems`). -/
def searchItems (fetchSearch : String → SearchMode → SearchScope → ℤ →
      List ParsedRawResult)
    (fetchItemsById : List String → List ItemSummary)
    (query : String) (mode : SearchMode) (scope : SearchScope)
    (limit : Option ℤ) : List SearchResult × ℕ :=
  let trimmedQuery := jsTrim query
  if trimmedQuery = "" then ([], 0)
  else
    let safeLimit := sanitiseLimit limit
    let parsed := fetchSearch trimmedQuery mode scope safeLimit
    if parsed.length = 0 then ([], 1)
    else
      let ids := uniqueIds parsed
      if ids.length = 0 then ([], 1)
      else
        let items := fetchItemsById ids
        (buildResults items parsed [], 2)

/-- Ordering of optional scores: `scoreLeB a b` holds when both scores are
present and `a ≤ b`, and trivially when either is absent. -/
def scoreLeB (a b : Option ℚ) : Bool :=
  match a, b with
  | some x, some y => decide (x ≤ y)
  | _, _ => true

theorem scoreLeB_refl (a : Option ℚ) : scoreLeB a a = true := by
  cases a <;> simp [scoreLeB]

theorem itemById_some_id (items : List ItemSummary) (id : String)
    (it : ItemSummary) (h : itemById items id = some it) : it.id = id := by
  unfold itemById at h
  have hp := List.find?_some (p := fun x : ItemSummary => x.id == id) h
  exact eq_of_beq hp

theorem buildResults_cons_none (items : List ItemSummary)
    (e : ParsedRawResult) (rest : List ParsedRawResult) (used : List String)
    (h : itemById items e.id = none) :
    buildResults items (e :: rest) used = buildResults items rest used := by
  simp only [buildResults, h]

theorem buildResults_cons_used (items : List ItemSummary)
    (e : ParsedRawResult) (rest : List ParsedRawResult) (used : List String)
    (it : ItemSummary) (h : itemById items e.id = some it)
    (hmem : e.id ∈ used) :
    buildResults items (e :: rest) used = buildResults items rest used := by
  simp only [buildResults, h]
  rw [if_pos hmem]

theorem buildResults_cons_new (items : List ItemSummary)
    (e : ParsedRawResult) (rest : List ParsedRawResult) (used : List String)
    (it : ItemSummary) (h : itemById items e.id = some it)
    (hmem : e.id ∉ used) :
    buildResults items (e :: rest) used =
      { item := it, preview := e.preview, score := e.score,
        distance := e.distance } :: buildResults items rest (e.id :: used) := by
  simp only [buildResults, h]
  rw [if_neg hmem]

/-- Every emitted result was looked up in the item map under its own id,
and its id is not among the already-used ids. -/
theorem buildResults_mem_sound (items : List ItemSummary) :
    ∀ (parsed : List ParsedRawResult) (used : List String)
      (r : SearchResult), r ∈ buildResults items parsed used →
      itemById items r.item.id = some r.item ∧ r.item.id ∉ used := by
  intro parsed
  induction parsed with
  | nil => intro used r hr; simp [buildResults] at hr
  | cons e rest ih =>
    intro used r hr
    cases hfind : itemById items e.id with
    | none =>
      rw [buildResults_cons_none items e rest used hfind] at hr
      exact ih used r hr
    | some it =>
      by_cases hmem : e.id ∈ used
      · rw [buildResults_cons_used items e rest used it hfind hmem] at hr
        exact ih used r hr
      · rw [buildResults_cons_new items e rest used it hfind hmem] at hr
        rcases List.mem_cons.mp hr with hhead | htail
        · have hid : it.id = e.id := itemById_some_id items e.id it hfind
          subst hhead
          constructor
          · simpa [hid] using hfind
          · simpa [hid] using hmem
        · obtain ⟨hlook, hnot⟩ := ih (e.id :: used) r htail
          exact ⟨hlook, fun hcontra =>
            hnot (List.mem_cons_of_mem _ hcontra)⟩

/-- The ids of the emitted results are pairwise distinct. -/
theorem buildResults_nodup (items : List ItemSummary) :
    ∀ (parsed : List ParsedRawResult) (used : List String),
      ((buildResults items parsed used).map
        (fun r => r.item.id)).Nodup := by
  intro parsed
  induction parsed with
  | nil => intro used; simp [buildResults]
  | cons e rest ih =>
    intro used
    cases hfind : itemById items e.id with
    | none =>
      rw [buildResults_cons_none items e rest used hfind]
      exact ih used
    | some it =>
      by_cases hmem : e.id ∈ used
      · rw [buildResults_cons_used items e rest used it hfind hmem]
        exact ih used
      · rw [buildResults_cons_new items e rest used it hfind hmem]
        have hid : it.id = e.id := itemById_some_id items e.id it hfind
        simp only [List.map_cons, List.nodup_cons]
        refine ⟨?_, ih (e.id :: used)⟩
        intro hcontra
        rw [List.mem_map] at hcontra
        obtain ⟨r, hr, hrid⟩ := hcontra
        have := (buildResults_mem_sound items rest (e.id :: used) r hr).2
        rw [hrid, hid] at this
        exact this (List.mem_cons_self _ _)

/-- When the parsed entries arrive ordered best score first, every emitted
result carries a score at least as good as that of any parsed entry with
the same item id. -/
theorem buildResults_best_score (items : List ItemSummary) :
    ∀ (parsed : List ParsedRawResult) (used : List String),
      parsed.Pairwise (fun a b => scoreLeB b.score a.score = true) →
      ∀ r ∈ buildResults items parsed used, ∀ p ∈ parsed,
        p.id = r.item.id → scoreLeB p.score r.score = true := by
  intro parsed
  induction parsed with
  | nil => intro used _ r hr; simp [buildResults] at hr
  | cons e rest ih =>
    intro used hpw r hr p hp hpid
    rw [List.pairwise_cons] at hpw
    obtain ⟨hhead, hrest⟩ := hpw
    cases hfind : itemById items e.id with
    | none =>
      rw [buildResults_cons_none items e rest used hfind] at hr
      rcases List.mem_cons.mp hp with rfl | hp'
      · have hlook := (buildResults_mem_sound items rest used r hr).1
        rw [← hpid] at hlook
        rw [hlook] at hfind
        exact absurd hfind (by simp)
      · exact ih used hrest r hr p hp' hpid
    | some it =>
      by_cases hmem : e.id ∈ used
      · rw [buildResults_cons_used items e rest used it hfind hmem] at hr
        rcases List.mem_cons.mp hp with rfl | hp'
        · have hnotused := (buildResults_mem_sound items rest used r hr).2
          rw [← hpid] at hnotused
          exact absurd hmem hnotused
        · exact ih used hrest r hr p hp' hpid
      · rw [buildResults_cons_new items e rest used it hfind hmem] at hr
        rcases List.mem_cons.mp hr with hhead' | htail
        · subst hhead'
          rcases List.mem_cons.mp hp with rfl | hp'
          · exact scoreLeB_refl _
          · exact hhead p hp'
        · rcases List.mem_cons.mp hp with rfl | hp'
          · have hnotused :=
              (buildResults_mem_sound items rest _ r htail).2
            rw [← hpid] at hnotused
            exact absurd (List.mem_cons_self _ _) hnotused
          · exact ih _ hrest r htail p hp' hpid

/-- Claim C4: the deduplicated result list of `searchItems` never contains
two entries with the same item id; and when the backend list is ordered
best score first (as the spec requires of semantic chunk-scope results),
the entry kept for an item has the best score among that item's entries. -/
theorem searchResults_no_duplicate_items (items : List ItemSummary)
    (parsed : List ParsedRawResult) :
    ((buildResults items parsed []).map (fun r => r.item.id)).Nodup ∧
      (parsed.Pairwise (fun a b => scoreLeB b.score a.score = true) →
        ∀ r ∈ buildResults items parsed [], ∀ p ∈ parsed,
          p.id = r.item.id → scoreLeB p.score r.score = true) :=
  ⟨buildResults_nodup items parsed [],
    fun hpw r hr p hp hpid =>
      buildResults_best_score items parsed [] hpw r hr p hp hpid⟩

/-- Concrete items for the deduplication witness. -/
def sampleItems : List ItemSummary := [⟨"a"⟩, ⟨"b"⟩]

/-- Concrete parsed backend entries for the deduplication witness: item "a"
matches twice (scores 5 then 3), item "b" once (score 2). -/
def sampleParsed : List ParsedRawResult :=
  [⟨"a", none, some 5, none⟩, ⟨"a", none, some 3, none⟩,
    ⟨"b", none, some 2, none⟩]

/-- Witness for the deduplication theorem on the concrete entries. -/
theorem searchResults_no_duplicate_items_witness :
    sampleParsed.Pairwise (fun a b => scoreLeB b.score a.score = true) ∧
      (∀ r ∈ buildResults sampleItems sampleParsed [], ∀ p ∈ sampleParsed,
        p.id = r.item.id → scoreLeB p.score r.score = true) :=
  ⟨by decide,
    (searchResults_no_duplicate_items sampleItems sampleParsed).2 (by decide)⟩

/-- Claim C5: a query that is empty or all whitespace produces an empty
result list, and neither the search backend nor the item store (and hence
no embedding provider behind them) is called. -/
theorem searchItems_empty_query
    (fetchSearch : String → SearchMode → SearchScope → ℤ →
      List ParsedRawResult)
    (fetchItemsById : List String → List ItemSummary)
    (query : String) (mode : SearchMode) (scope : SearchScope)
    (limit : Option ℤ) (h : jsTrim query = "") :
    searchItems fetchSearch fetchItemsById query mode scope limit = ([], 0) := by
  unfold searchItems
  simp [h]

/-- Witness: the whitespace query "  " yields no results and zero backend
calls. -/
theorem searchItems_empty_query_witness :
    (jsTrim "  " = "") ∧
      searchItems (fun _ _ _ _ => []) (fun _ => []) "  " SearchMode.lexical
        SearchScope.items none = ([], 0) :=
  ⟨by decide, searchItems_empty_query _ _ _ _ _ _ (by decide)⟩

/-! ## Duplicate submission (spec sections 4.2, 5 and 7; claim C6)

The items table carries the unique partial index
`idx_items_user_canonical_url ON items(user_id, canonical_url) WHERE
canonical_url IS NOT NULL` and the unique index `idx_items_user_url_unique
ON items(user_id, url)` (schema bootstrap, src/unnamed/part_001 lines 113
to 114).  The backend route `/items/add` that turns an index conflict into
an HTTP 409 is not among the available sources and is modelled from the
spec; the frontend action `addItemAction`
(src/frontend/src/app/_actions/items.ts lines 49 to 63) maps the 409 onto
a user-facing duplicate message. -/

/-- One row of the items table, restricted to the columns the uniqueness
invariant speaks about. -/
structure ItemRow where
  userId : String
  url : String
  canonicalUrl : Option String
deriving DecidableEq

/-- The outcome of one submission. -/
inductive AddItemResult where
  | ok
  | conflictError
deriving DecidableEq

/-- The HTTP status carried by each outcome: 201 on creation, 409 on a
canonical-URL (or URL) conflict. -/
def addStatus : AddItemResult → ℕ
  | AddItemResult.ok => 201
  | AddItemResult.conflictError => 409

/-- Does a row collide with the partial unique index
`(user_id, canonical_url) WHERE canonical_url IS NOT NULL`? -/
def canonicalMatches (u c : String) (row : ItemRow) : Bool :=
  row.userId == u && row.canonicalUrl == some c

/-- Does a row collide with the unique index `(user_id, url)`? -/
def urlMatches (u url : String) (row : ItemRow) : Bool :=
  row.userId == u && row.url == url

/-- Modelled from the spec: the backend insert behind `/items/add` (the
backend source is absent).  The store's two uniqueness constraints are the
serialization point (spec section 5, insert-or-conflict): an existing row
with the same `(user, canonical_url)` — or the same `(user, url)` —
short-circuits with a conflict signal instead of re-ingesting, leaving the
table unchanged. -/
def addItem (rows : List ItemRow) (u url : String)
    (canonicalUrl : Option String) : List ItemRow × AddItemResult :=
  let dupCanonical :=
    match canonicalUrl with
    | some c => rows.any (canonicalMatches u c)
    | none => false
  let dupUrl := rows.any (urlMatches u url)
  if dupCanonical || dupUrl then (rows, AddItemResult.conflictError)
  else (rows ++ [{ userId := u, url := url, canonicalUrl := canonicalUrl }],
    AddItemResult.ok)

/-- The duplicate-URL message chosen by `addItemAction` for an HTTP 409
(src/frontend/src/app/_actions/items.ts lines 50 to 54). -/
def addItemMessage (status : ℕ) : String :=
  if status == 409 then "This URL is already in your queue."
  else "Unable to add item."

/-- Claim C6: if no item row of user `u` carries canonical URL `c` (nor the
submitted URL), the first submission succeeds, resubmitting the same
canonical URL fails with `ConflictError`, surfaced as HTTP 409 and the
duplicate message, and exactly one row with `(u, c)` exists afterwards. -/
theorem addItem_duplicate_conflict (rows : List ItemRow)
    (u url₁ url₂ c : String)
    (h₁ : rows.any (canonicalMatches u c) = false)
    (h₂ : rows.any (urlMatches u url₁) = false) :
    (addItem rows u url₁ (some c)).2 = AddItemResult.ok ∧
      (addItem (addItem rows u url₁ (some c)).1 u url₂ (some c)).2 =
        AddItemResult.conflictError ∧
      addStatus
        (addItem (addItem rows u url₁ (some c)).1 u url₂ (some c)).2 = 409 ∧
      addItemMessage
        (addStatus
          (addItem (addItem rows u url₁ (some c)).1 u url₂ (some c)).2) =
        "This URL is already in your queue." ∧
      ((addItem (addItem rows u url₁ (some c)).1 u url₂ (some c)).1).countP
        (canonicalMatches u c) = 1 := by
  have hrow : canonicalMatches u c (⟨u, url₁, some c⟩ : ItemRow) = true := by
    simp [canonicalMatches]
  have hfirst : addItem rows u url₁ (some c) =
      (rows ++ [(⟨u, url₁, some c⟩ : ItemRow)], AddItemResult.ok) := by
    unfold addItem
    simp [h₁, h₂]
  have hdup : (rows ++ [(⟨u, url₁, some c⟩ : ItemRow)]).any
      (canonicalMatches u c) = true := by
    rw [List.any_append]
    simp [hrow]
  have hsecond : addItem (rows ++ [(⟨u, url₁, some c⟩ : ItemRow)])
      u url₂ (some c) =
      (rows ++ [(⟨u, url₁, some c⟩ : ItemRow)],
        AddItemResult.conflictError) := by
    unfold addItem
    simp [hdup]
  have hcount : (rows ++ [(⟨u, url₁, some c⟩ : ItemRow)]).countP
      (canonicalMatches u c) = 1 := by
    rw [List.countP_append]
    have hzero : rows.countP (canonicalMatches u c) = 0 := by
      rw [List.countP_eq_zero]
      intro a ha hpa
      have : rows.any (canonicalMatches u c) = true :=
        List.any_eq_true.mpr ⟨a, ha, hpa⟩
      rw [h₁] at this
      exact Bool.false_ne_true this
    rw [hzero]
    simp [hrow]
  rw [hfirst]
  simp [hsecond, addStatus, addItemMessage, hcount]

/-- Witness: submitting the same canonical URL twice into an empty table. -/
theorem addItem_duplicate_conflict_witness :
    (([] : List ItemRow).any (canonicalMatches "u" "https://x/a") = false) ∧
      (([] : List ItemRow).any (urlMatches "u" "https://x/a?1") = false) ∧
      (addItem [] "u" "https://x/a?1" (some "https://x/a")).2 =
        AddItemResult.ok ∧
      (addItem (addItem [] "u" "https://x/a?1" (some "https://x/a")).1 "u"
        "https://x/a?2" (some "https://x/a")).2 =
        AddItemResult.conflictError ∧
      ((addItem (addItem [] "u" "https://x/a?1" (some "https://x/a")).1 "u"
        "https://x/a?2" (some "https://x/a")).1).countP
        (canonicalMatches "u" "https://x/a") = 1 := by
  have h := addItem_duplicate_conflict [] "u" "https://x/a?1" "https://x/a?2"
    "https://x/a" (by decide) (by decide)
  exact ⟨by decide, by decide, h.1, h.2.1, h.2.2.2.2⟩

/-! ## Algorithm-parameter validation (claim C7)

The frontend never raises a `ValidationError` for an out-of-range cluster
count or DBSCAN eps: `parseClusterCount`
(src/frontend/src/app/page.tsx lines 132 to 141) clamps the parsed count
into [2, 24], and `handleDbscanEpsChange`
(src/frontend/src/app/@controls/graph/GraphControlsClient.tsx lines 162 to
170) clamps eps into [0.01, 1.0]; both proceed with the substituted value. -/

/-- `DEFAULT_CLUSTER_COUNT` (src/unnamed/part_007 line 25). -/
def DEFAULT_CLUSTER_COUNT : ℤ := 5

/-- `DEFAULT_DBSCAN_EPS` (src/unnamed/part_007 line 26). -/
def DEFAULT_DBSCAN_EPS : ℚ := 3 / 10

/-- The maximal leading run of decimal digits of a character list. -/
def digitsPrefixOf : List Char → List Char
  | [] => []
  | ch :: rest => if ch.isDigit then ch :: digitsPrefixOf rest else []

/-- The numeric value of a list of decimal digits. -/
def digitsToNat (ds : List Char) : ℕ :=
  ds.foldl (fun acc ch => acc * 10 + (ch.toNat - 48)) 0

/-- Model of `Number.parseInt(value, 10)`: strip whitespace, read an
optional sign and then the maximal leading run of decimal digits; `none`
models the `NaN` result when that run is empty. -/
def jsParseInt (s : String) : Option ℤ :=
  let core := fun (cs : List Char) (sign : ℤ) =>
    let ds := digitsPrefixOf cs
    if ds.isEmpty then none else some (sign * (digitsToNat ds : ℤ))
  match (jsTrim s).data with
  | '-' :: rest => core rest (-1)
  | '+' :: rest => core rest 1
  | cs => core cs 1

/-- `parseClusterCount` (src/frontend/src/app/page.tsx lines 132 to 141):
a missing or empty value and an unparsable value fall back to the default;
every parsed value is clamped into [2, 24].  There is no error path. -/
def parseClusterCount (value : Option String) : ℤ :=
  match value with
  | none => DEFAULT_CLUSTER_COUNT
  | some v =>
    if v = "" then DEFAULT_CLUSTER_COUNT
    else
      match jsParseInt v with
      | none => DEFAULT_CLUSTER_COUNT
      | some numeric => min (max numeric 2) 24

/-- The clamp inside `handleDbscanEpsChange`
(GraphControlsClient.tsx line 165): `Math.max(0.01, Math.min(value, 1.0))`. -/
def clampEps (value : ℚ) : ℚ := max (1 / 100) (min value 1)

/-- Counterexample to claim C7: the out-of-range cluster count 30 does not
fail with a `ValidationError` — `parseClusterCount` has no error outcome at
all — but is clamped to 24 and the request proceeds; likewise the
out-of-range eps 5 is clamped to 1. -/
theorem clusterParams_not_validated :
    parseClusterCount (some "30") = 24 ∧ clampEps 5 = 1 := by
  constructor
  · decide
  · simp [clampEps]
    norm_num

/-- Claim C7, as amended: an out-of-range cluster count or DBSCAN eps does
not fail with `ValidationError`; instead the frontend substitutes a clamped
value — the cluster count always lands in [2, 24] and the eps control's
value always lands in [0.01, 1.0] — and proceeds with it. -/
theorem clusterParams_clamped :
    (∀ v : Option String,
      2 ≤ parseClusterCount v ∧ parseClusterCount v ≤ 24) ∧
      (∀ q : ℚ, 1 / 100 ≤ clampEps q ∧ clampEps q ≤ 1) := by
  constructor
  · intro v
    match v with
    | none => constructor <;> norm_num [parseClusterCount, DEFAULT_CLUSTER_COUNT]
    | some s =>
      by_cases hempty : s = ""
      · constructor <;>
          norm_num [parseClusterCount, hempty, DEFAULT_CLUSTER_COUNT]
      · cases hp : jsParseInt s with
        | none =>
          constructor <;>
            norm_num [parseClusterCount, hempty, hp, DEFAULT_CLUSTER_COUNT]
        | some numeric =>
          have hval : parseClusterCount (some s) = min (max numeric 2) 24 := by
            simp [parseClusterCount, hempty, hp]
          rw [hval]
          constructor
          · exact le_min (le_max_right _ _) (by norm_num)
          · exact min_le_right _ _
  · intro q
    constructor
    · exact le_max_left _ _
    · exact max_le (by norm_num) (min_le_right _ _)

/-! ## Embedding-space Analyzer (spec section 4.3; claim C8)

Modelled from the spec: the backend Analyzer behind
`/clusters/dimensional-reduction` is not among the available sources (the
frontend only proxies it,
src/frontend/src/app/api/graph/dimensional-reduction/route.ts).  The
projection and clustering routines themselves are taken as parameters; the
degenerate-input guard of spec section 4.3 — fewer than 2 items for a 2D
projection, or fewer items than the requested cluster count — fails with
`InsufficientDataError` before either routine runs. -/

/-- The projection choices of `analyze`. -/
inductive Projection where
  | pca
  | tsne
  | umap
deriving DecidableEq

/-- The clustering choices of `analyze`. -/
inductive ClusteringAlg where
  | kmeans
  | hca
  | dbscan
deriving DecidableEq

/-- The Analyzer's error outcome for degenerate input. -/
inductive AnalyzeError where
  | insufficientData
deriving DecidableEq

/-- The Analyzer's output: per-item 2D coordinates and per-item cluster
assignments (`none` is the unclustered sentinel). -/
structure AnalyzeOutput where
  coordinates : List (String × ℚ × ℚ)
  assignments : List (String × Option ℕ)
deriving DecidableEq

/-- Modelled from the spec: `analyze(itemVectors, projection, clustering,
params)` of the backend Analyzer (spec section 4.3; the backend source is
absent).  `project` and `cluster` stand for the concrete projection and
partition routines; `clusterCount` is the caller-supplied count for the
count-based algorithms. -/
def analyze
    (project : Projection → List (String × Vec) → List (String × ℚ × ℚ))
    (cluster : ClusteringAlg → List (String × Vec) →
      List (String × Option ℕ))
    (itemVectors : List (String × Vec)) (proj : Projection)
    (alg : ClusteringAlg) (clusterCount : ℕ) :
    Except AnalyzeError AnalyzeOutput :=
  if itemVectors.length < 2 then Except.error AnalyzeError.insufficientData
  else if (alg == ClusteringAlg.kmeans || alg == ClusteringAlg.hca) &&
      itemVectors.length < clusterCount then
    Except.error AnalyzeError.insufficientData
  else Except.ok
    { coordinates := project proj itemVectors,
      assignments := cluster alg itemVectors }

/-- Claim C8: with fewer than 2 item vectors (in particular a single item
with projection PCA) the Analyzer fails with `InsufficientDataError` and
produces no coordinates or assignments, whatever the projection and
clustering routines would compute. -/
theorem analyze_insufficient_data
    (project : Projection → List (String × Vec) → List (String × ℚ × ℚ))
    (cluster : ClusteringAlg → List (String × Vec) →
      List (String × Option ℕ))
    (itemVectors : List (String × Vec)) (proj : Projection)
    (alg : ClusteringAlg) (clusterCount : ℕ)
    (h : itemVectors.length < 2) :
    analyze project cluster itemVectors proj alg clusterCount =
        Except.error AnalyzeError.insufficientData ∧
      ∀ out : AnalyzeOutput,
        analyze project cluster itemVectors proj alg clusterCount ≠
          Except.ok out := by
  unfold analyze
  rw [if_pos h]
  exact ⟨rfl, fun out hcontra => Except.noConfusion hcontra⟩

/-- Witness: a single item vector under PCA. -/
theorem analyze_insufficient_data_witness :
    ([("a", [1, 0])] : List (String × Vec)).length < 2 ∧
      analyze (fun _ _ => []) (fun _ _ => []) [("a", [1, 0])]
          Projection.pca ClusteringAlg.kmeans 5 =
        Except.error AnalyzeError.insufficientData :=
  ⟨by decide,
    (analyze_insufficient_data (fun _ _ => []) (fun _ _ => [])
      [("a", [1, 0])] Projection.pca ClusteringAlg.kmeans 5 (by decide)).1⟩

/-! ## Cluster display colors (src/unnamed/part_010; claim C9)

`colorForClusterId` derives the display color from the transient
request-scoped cluster id by golden-angle hue rotation — not from the
cluster's content.  Numbers are modelled as rationals; `Math.round` rounds
half toward positive infinity; the JavaScript `%` with the nonnegative
dividends occurring here is `a - b * floor (a / b)`. -/

/-- `DEFAULT_CLUSTER_COLOR` (src/unnamed/part_010 line 3). -/
def DEFAULT_CLUSTER_COLOR : ℤ × ℤ × ℤ := (128, 132, 140)

/-- JavaScript `Math.round`: round half toward positive infinity. -/
def jsRound (q : ℚ) : ℤ := ⌊q + 1 / 2⌋

/-- The JavaScript remainder `a % b` for the nonnegative dividends and
positive divisors used by the color computation. -/
def jsMod (a b : ℚ) : ℚ := a - b * (⌊a / b⌋ : ℤ)

/-- `hslToRgb` (src/unnamed/part_010 lines 5 to 41). -/
def hslToRgb (h s l : ℚ) : ℤ × ℤ × ℤ :=
  let hue := jsMod (jsMod h 360 + 360) 360
  let chroma := (1 - |2 * l - 1|) * s
  let segment := hue / 60
  let x := chroma * (1 - |jsMod segment 2 - 1|)
  let rgbPrime : ℚ × ℚ × ℚ :=
    if 0 ≤ segment ∧ segment < 1 then (chroma, x, 0)
    else if 1 ≤ segment ∧ segment < 2 then (x, chroma, 0)
    else if 2 ≤ segment ∧ segment < 3 then (0, chroma, x)
    else if 3 ≤ segment ∧ segment < 4 then (0, x, chroma)
    else if 4 ≤ segment ∧ segment < 5 then (x, 0, chroma)
    else if 5 ≤ segment ∧ segment < 6 then (chroma, 0, x)
    else (0, 0, 0)
  let m := l - chroma / 2
  (jsRound ((rgbPrime.1 + m) * 255), jsRound ((rgbPrime.2.1 + m) * 255),
    jsRound ((rgbPrime.2.2 + m) * 255))

/-- `colorForClusterId` (src/unnamed/part_010 lines 43 to 53): `none`
models a null or undefined id (the non-finite guard cannot fire on ℚ);
negative ids get the default grey; otherwise the hue is the golden-angle
multiple `clusterId * 137.508 mod 360` with fixed saturation 0.58 and
lightness 0.55. -/
def colorForClusterId (clusterId : Option ℚ) : ℤ × ℤ × ℤ :=
  match clusterId with
  | none => DEFAULT_CLUSTER_COLOR
  | some cid =>
    if cid < 0 then DEFAULT_CLUSTER_COLOR
    else hslToRgb (jsMod (cid * (137508 / 1000)) 360) (58 / 100) (55 / 100)

theorem colorForClusterId_eval_0 :
    colorForClusterId (some 0) = (207, 74, 74) := by
  norm_num [colorForClusterId, hslToRgb, jsMod, jsRound, abs_of_nonneg]

theorem colorForClusterId_eval_1 :
    colorForClusterId (some 1) = (74, 207, 113) := by
  norm_num [colorForClusterId, hslToRgb, jsMod, jsRound, abs_of_nonneg]

theorem colorForClusterId_eval_2 :
    colorForClusterId (some 2) = (151, 74, 207) := by
  norm_num [colorForClusterId, hslToRgb, jsMod, jsRound, abs_of_nonneg]

theorem colorForClusterId_eval_3 :
    colorForClusterId (some 3) = (207, 190, 74) := by
  norm_num [colorForClusterId, hslToRgb, jsMod, jsRound, abs_of_nonneg]

theorem colorForClusterId_eval_4 :
    colorForClusterId (some 4) = (74, 185, 207) := by
  norm_num [colorForClusterId, hslToRgb, jsMod, jsRound, abs_of_nonneg]

theorem colorForClusterId_eval_5 :
    colorForClusterId (some 5) = (207, 74, 146) := by
  norm_num [colorForClusterId, hslToRgb, jsMod, jsRound, abs_of_nonneg]

theorem colorForClusterId_eval_6 :
    colorForClusterId (some 6) = (107, 207, 74) := by
  norm_num [colorForClusterId, hslToRgb, jsMod, jsRound, abs_of_nonneg]

theorem colorForClusterId_eval_7 :
    colorForClusterId (some 7) = (79, 74, 207) := by
  norm_num [colorForClusterId, hslToRgb, jsMod, jsRound, abs_of_nonneg]

/-- Counterexample to claim C9: the display color is a function of the
transient cluster id alone, so a cluster with identical content but a
different id in a second run gets a different color — ids 0 and 1 already
disagree. -/
theorem colorForClusterId_differs_across_ids :
    colorForClusterId (some 0) ≠ colorForClusterId (some 1) := by
  rw [colorForClusterId_eval_0, colorForClusterId_eval_1]
  decide

/-- Claim C9, as amended: the display color is derived from the transient
request-scoped cluster id (golden-angle hue spacing), not from the
cluster's content — null and negative ids get the default grey, and the
first eight ids receive pairwise distinct colors. -/
theorem colorForClusterId_id_derived :
    colorForClusterId none = DEFAULT_CLUSTER_COLOR ∧
      (∀ q : ℚ, q < 0 → colorForClusterId (some q) = DEFAULT_CLUSTER_COLOR) ∧
      (([0, 1, 2, 3, 4, 5, 6, 7] : List ℚ).map
        (fun q => colorForClusterId (some q))).Nodup := by
  refine ⟨rfl, ?_, ?_⟩
  · intro q hq
    simp [colorForClusterId, if_pos hq]
  · simp only [List.map_cons, List.map_nil, colorForClusterId_eval_0,
      colorForClusterId_eval_1, colorForClusterId_eval_2,
      colorForClusterId_eval_3, colorForClusterId_eval_4,
      colorForClusterId_eval_5, colorForClusterId_eval_6,
      colorForClusterId_eval_7]
    decide

/-- Witness: a negative id receives the default grey. -/
theorem colorForClusterId_id_derived_witness :
    ((-1 : ℚ) < 0) ∧
      colorForClusterId (some (-1)) = DEFAULT_CLUSTER_COLOR :=
  ⟨by norm_num, colorForClusterId_id_derived.2.1 (-1) (by norm_num)⟩

/-! ## Demo-account rate limiter
(src/frontend/src/app/api/demo/request/route.ts; claim C10)

The in-memory limiter keyed by client IP: before forwarding, the stored
timestamps for the key are pruned to the 24-hour window and the request is
answered 429 without forwarding when three or more remain; a timestamp is
recorded only after the backend responded successfully. -/

/-- `RATE_LIMIT_MAX` (route.ts line 8). -/
def RATE_LIMIT_MAX : ℕ := 3

/-- `RATE_LIMIT_WINDOW_MS` (route.ts line 9): one day in milliseconds. -/
def RATE_LIMIT_WINDOW_MS : ℤ := 24 * 60 * 60 * 1000

/-- The rate-limit store (route.ts line 10), as a total map from client
key to recorded timestamps; an absent key is the empty list (the code's
`?? []` and delete-on-empty make the two representations coincide). -/
abbrev RateStore := String → List ℤ

/-- The store at process start. -/
def emptyStore : RateStore := fun _ => []

/-- `pruneOldEntries` (route.ts lines 24 to 26). -/
def pruneOldEntries (timestamps : List ℤ) (now : ℤ) : List ℤ :=
  timestamps.filter (fun t => decide (now - t < RATE_LIMIT_WINDOW_MS))

/-- `updateStore` (route.ts lines 28 to 34). -/
def updateStore (store : RateStore) (clientKey : String)
    (timestamps : List ℤ) : RateStore :=
  fun k => if k = clientKey then timestamps else store k

/-- The response of one `POST /api/demo/request`: either the 429
rate-limit short-circuit (no backend call), or a forwarded request whose
response carries the backend's status. -/
inductive DemoResponse where
  | rateLimited
  | forwarded (backendStatus : ℕ)
deriving DecidableEq

/-- The HTTP status of a response: 429 for the rate-limit short-circuit,
the backend's own status otherwise (route.ts lines 44 to 49 and 71 to
75). -/
def demoStatus : DemoResponse → ℕ
  | DemoResponse.rateLimited => 429
  | DemoResponse.forwarded s => s

/-- Whether a forwarded response was successful (`response.ok`). -/
def demoOk (r : DemoResponse) : Bool :=
  match r with
  | DemoResponse.rateLimited => false
  | DemoResponse.forwarded s => 200 ≤ s && s < 300

/-- `POST` (route.ts lines 36 to 80): prune the key's timestamps to the
window; with `RATE_LIMIT_MAX` or more remaining, store the pruned list and
answer 429 without forwarding; otherwise store the pruned list, forward,
and append the current time only when the backend answered successfully. -/
def demoPost (store : RateStore) (clientKey : String) (now : ℤ)
    (backendStatus : ℕ) : RateStore × DemoResponse :=
  let existing := store clientKey
  let recent := pruneOldEntries existing now
  if RATE_LIMIT_MAX ≤ recent.length then
    (updateStore store clientKey recent, DemoResponse.rateLimited)
  else
    let store₁ := updateStore store clientKey recent
    if 200 ≤ backendStatus && backendStatus < 300 then
      let latest := store₁ clientKey
      let updated := pruneOldEntries latest now ++ [now]
      (updateStore store₁ clientKey updated,
        DemoResponse.forwarded backendStatus)
    else (store₁, DemoResponse.forwarded backendStatus)

/-- One request event of a trace: the client key, the request time
(`Date.now()`), and the status the backend would answer with. -/
structure DemoEvent where
  clientKey : String
  time : ℤ
  backendStatus : ℕ
deriving DecidableEq

/-- Running a trace of requests through the limiter, collecting each
event's response. -/
def runDemo : RateStore → List DemoEvent →
    RateStore × List (DemoEvent × DemoResponse)
  | store, [] => (store, [])
  | store, e :: rest =>
    let step := demoPost store e.clientKey e.time e.backendStatus
    let next := runDemo step.1 rest
    (next.1, (e, step.2) :: next.2)

/-- A trace entry that counts against key `key`'s quota at time `now`:
same key, successful backend response, within the 24-hour window. -/
def isRecentSuccess (key : String) (now : ℤ)
    (er : DemoEvent × DemoResponse) : Bool :=
  er.1.clientKey == key && demoOk er.2 &&
    decide (now - er.1.time < RATE_LIMIT_WINDOW_MS)

/-- How many successfully forwarded requests of `key` lie within the
24-hour window preceding `now`. -/
def recentSuccessCount (out : List (DemoEvent × DemoResponse))
    (key : String) (now : ℤ) : ℕ :=
  (out.filter (isRecentSuccess key now)).length

theorem pruneOldEntries_twice (l : List ℤ) (te now : ℤ) (h : te ≤ now) :
    pruneOldEntries (pruneOldEntries l te) now = pruneOldEntries l now := by
  unfold pruneOldEntries
  rw [List.filter_filter]
  apply List.filter_congr
  intro t _
  by_cases hnow : now - t < RATE_LIMIT_WINDOW_MS
  · have hte : te - t < RATE_LIMIT_WINDOW_MS := by omega
    simp [hnow, hte]
  · simp [hnow]

theorem pruneOldEntries_append (l₁ l₂ : List ℤ) (now : ℤ) :
    pruneOldEntries (l₁ ++ l₂) now =
      pruneOldEntries l₁ now ++ pruneOldEntries l₂ now := by
  simp [pruneOldEntries]

theorem updateStore_same (store : RateStore) (k : String) (ts : List ℤ) :
    updateStore store k ts k = ts := by
  simp [updateStore]

theorem updateStore_other (store : RateStore) (k k' : String) (ts : List ℤ)
    (h : k' ≠ k) : updateStore store k ts k' = store k' := by
  simp [updateStore, h]

/-- How one request changes the window-pruned entry count of any key: it
is preserved, except that a successfully forwarded request of that key
within the window adds one. -/
theorem demoPost_prune_length (store : RateStore) (clientKey key : String)
    (te now : ℤ) (backendStatus : ℕ) (hte : te ≤ now) :
    (pruneOldEntries ((demoPost store clientKey te backendStatus).1 key)
        now).length =
      (pruneOldEntries (store key) now).length +
        (if isRecentSuccess key now
            (⟨clientKey, te, backendStatus⟩,
              (demoPost store clientKey te backendStatus).2) = true
          then 1 else 0) := by
  by_cases hkey : key = clientKey
  · subst hkey
    unfold demoPost
    by_cases hlim :
        RATE_LIMIT_MAX ≤ (pruneOldEntries (store key) te).length
    · rw [if_pos hlim]
      simp only [updateStore_same]
      rw [pruneOldEntries_twice _ _ _ hte]
      simp [isRecentSuccess, demoOk]
    · rw [if_neg hlim]
      by_cases hok : (200 ≤ backendStatus && backendStatus < 300) = true
      · rw [if_pos hok]
        simp only [updateStore_same]
        rw [pruneOldEntries_twice _ te te le_rfl, pruneOldEntries_append,
          pruneOldEntries_twice _ _ _ hte]
        simp only [List.length_append]
        by_cases hwin : now - te < RATE_LIMIT_WINDOW_MS
        · have hsucc : isRecentSuccess key now
              (⟨key, te, backendStatus⟩,
                DemoResponse.forwarded backendStatus) = true := by
            simp only [isRecentSuccess, demoOk]
            simp [hwin, hok]
          rw [if_pos hsucc]
          simp [pruneOldEntries, hwin]
        · have hsucc : isRecentSuccess key now
              (⟨key, te, backendStatus⟩,
                DemoResponse.forwarded backendStatus) = false := by
            simp [isRecentSuccess, hwin]
          rw [hsucc]
          simp [pruneOldEntries, hwin]
      · rw [if_neg hok]
        simp only [updateStore_same]
        rw [pruneOldEntries_twice _ _ _ hte]
        have hok' : (200 ≤ backendStatus && backendStatus < 300) = false :=
          Bool.not_eq_true _ ▸ Bool.eq_false_iff.mpr hok
        have hsucc : isRecentSuccess key now
            (⟨key, te, backendStatus⟩,
              DemoResponse.forwarded backendStatus) = false := by
          simp only [isRecentSuccess, demoOk]
          rw [hok']
          simp
        rw [hsucc]
        simp
  · have hbe : ((⟨clientKey, te, backendStatus⟩ :
        DemoEvent).clientKey == key) = false := by
      rw [beq_eq_false_iff_ne]
      intro hc
      exact hkey hc.symm
    have hfalse : ∀ resp : DemoResponse, isRecentSuccess key now
        (⟨clientKey, te, backendStatus⟩, resp) = false := by
      intro resp
      simp only [isRecentSuccess, hbe]
      simp
    unfold demoPost
    by_cases hlim :
        RATE_LIMIT_MAX ≤ (pruneOldEntries (store clientKey) te).length
    · rw [if_pos hlim]
      simp only [updateStore_other _ _ _ _ hkey]
      rw [hfalse _]
      simp
    · rw [if_neg hlim]
      by_cases hok : (200 ≤ backendStatus && backendStatus < 300) = true
      · rw [if_pos hok]
        simp only [updateStore_other _ _ _ _ hkey]
        rw [hfalse _]
        simp
      · rw [if_neg hok]
        simp only [updateStore_other _ _ _ _ hkey]
        rw [hfalse _]
        simp

/-- Trace invariant: for every key, the number of stored timestamps still
inside the 24-hour window at `now` equals the number of successfully
forwarded requests of that key within that window — the limiter counts
exactly the successful requests. -/
theorem runDemo_prune_length (key : String) (now : ℤ) :
    ∀ (events : List DemoEvent) (store : RateStore),
      (∀ e ∈ events, e.time ≤ now) →
      (pruneOldEntries ((runDemo store events).1 key) now).length =
        (pruneOldEntries (store key) now).length +
          recentSuccessCount (runDemo store events).2 key now := by
  intro events
  induction events with
  | nil =>
    intro store _
    simp [runDemo, recentSuccessCount]
  | cons e rest ih =>
    intro store hnow
    have hte : e.time ≤ now := hnow e (List.mem_cons_self _ _)
    have hrest : ∀ x ∈ rest, x.time ≤ now := fun x hx =>
      hnow x (List.mem_cons_of_mem _ hx)
    have hstep := demoPost_prune_length store e.clientKey key e.time now
      e.backendStatus hte
    have hrun := ih (demoPost store e.clientKey e.time e.backendStatus).1
      hrest
    unfold runDemo
    simp only []
    rw [hrun, hstep]
    unfold recentSuccessCount
    by_cases hsucc : isRecentSuccess key now
        (e, (demoPost store e.clientKey e.time e.backendStatus).2) = true
    · rw [List.filter_cons]
      simp only [hsucc]
      simp
      omega
    · rw [List.filter_cons]
      have hfalse := Bool.eq_false_iff.mpr hsucc
      simp only [hfalse]
      simp

/-- Claim C10: starting from the process-start store, after any trace of
requests all timed at or before `now`, (a) the stored window count for a
key equals its number of successfully forwarded requests in the preceding
24 hours — only successful requests are counted — and (b) once that number
reaches three, the next request of that key is answered 429 and not
forwarded. -/
theorem demo_rate_limit (events : List DemoEvent) (key : String)
    (now : ℤ) (backendStatus : ℕ)
    (hnow : ∀ e ∈ events, e.time ≤ now) :
    (pruneOldEntries ((runDemo emptyStore events).1 key) now).length =
        recentSuccessCount (runDemo emptyStore events).2 key now ∧
      (RATE_LIMIT_MAX ≤
          recentSuccessCount (runDemo emptyStore events).2 key now →
        (demoPost (runDemo emptyStore events).1 key now backendStatus).2 =
            DemoResponse.rateLimited ∧
          demoStatus
            (demoPost (runDemo emptyStore events).1 key now
              backendStatus).2 = 429) := by
  have hinv := runDemo_prune_length key now events emptyStore hnow
  have hempty : (pruneOldEntries (emptyStore key) now).length = 0 := by
    simp [emptyStore, pruneOldEntries]
  rw [hempty] at hinv
  simp only [Nat.zero_add] at hinv
  refine ⟨hinv, fun hquota => ?_⟩
  have hlim : RATE_LIMIT_MAX ≤
      (pruneOldEntries ((runDemo emptyStore events).1 key) now).length := by
    rw [hinv]
    exact hquota
  unfold demoPost
  rw [if_pos hlim]
  exact ⟨rfl, rfl⟩

/-- A concrete trace for the rate-limit witness: three successful demo
requests from the same client key at times 0, 1 and 2. -/
def demoSampleEvents : List DemoEvent :=
  [⟨"k", 0, 200⟩, ⟨"k", 1, 200⟩, ⟨"k", 2, 200⟩]

/-- Witness: after three successful requests, a fourth request at time 3
from the same key is answered 429 without being forwarded. -/
theorem demo_rate_limit_witness :
    (∀ e ∈ demoSampleEvents, e.time ≤ 3) ∧
      RATE_LIMIT_MAX ≤
        recentSuccessCount (runDemo emptyStore demoSampleEvents).2 "k" 3 ∧
      (demoPost (runDemo emptyStore demoSampleEvents).1 "k" 3 200).2 =
          DemoResponse.rateLimited ∧
        demoStatus
          (demoPost (runDemo emptyStore demoSampleEvents).1 "k" 3 200).2 =
          429 :=
  ⟨by decide, by decide,
    (demo_rate_limit demoSampleEvents "k" 3 200 (by decide)).2 (by decide)⟩

end ReadLater
